/-
  Verification of the research-agent content pipeline.

  Shallow embedding of the Python sources `bot.py` and `news.py`:
  dynamic Python values become the inductive `PyVal`; code that can raise
  becomes `Except String`-valued; `str.split`, `str.strip`, dict `.get`
  and `str()` are modelled explicitly; the Streamlit "Start Research"
  extraction of social-media sections is modelled as three pure functions
  on `List Char`.
-/
import Mathlib

namespace ResearchAgent

/-- Dynamic Python values, as far as this program manipulates them:
strings, integers, `None`, lists and (string-keyed) dicts, the latter
modelled as association lists. -/
inductive PyVal where
  | str : String → PyVal
  | int : Int → PyVal
  | none : PyVal
  | list : List PyVal → PyVal
  | dict : List (String × PyVal) → PyVal

/-- Python `d.get(k, default)` on a dict: value of the first matching key,
or the default when the key is absent. -/
def pyGet (d : List (String × PyVal)) (k : String) (dflt : PyVal) : PyVal :=
  match d.lookup k with
  | some v => v
  | Option.none => dflt

/-- A single-quote character, used by the Python `repr` of strings. -/
def pyQuote : String := String.singleton (Char.ofNat 39)

mutual

/-- Model of Python `repr` as used inside `str()` of containers (string
escaping inside `repr` is not modelled; no claim depends on it). -/
def pyRepr : PyVal → String
  | .str s => pyQuote ++ s ++ pyQuote
  | .int n => toString n
  | .none => "None"
  | .list xs => "[" ++ pyReprList xs ++ "]"
  | .dict kvs => "\x7b" ++ pyReprDict kvs ++ "\x7d"

/-- Comma-separated `repr` of the elements of a Python list. -/
def pyReprList : List PyVal → String
  | [] => ""
  | [x] => pyRepr x
  | x :: xs => pyRepr x ++ ", " ++ pyReprList xs

/-- Comma-separated `repr` of the key-value pairs of a Python dict. -/
def pyReprDict : List (String × PyVal) → String
  | [] => ""
  | [(k, v)] => pyQuote ++ k ++ pyQuote ++ ": " ++ pyRepr v
  | (k, v) :: kvs =>
      pyQuote ++ k ++ pyQuote ++ ": " ++ pyRepr v ++ ", " ++ pyReprDict kvs

end

/-- Model of Python `str(v)`: a string is returned as-is, every other
value through its `repr`-style rendering. -/
def pyStr : PyVal → String
  | .str s => s
  | v => pyRepr v

/-- Boolean prefix test on character lists (helper for the `str.split`
model). -/
def isPrefOf : List Char → List Char → Bool
  | [], _ => true
  | _ :: _, [] => false
  | a :: xs, b :: ys => a = b && isPrefOf xs ys

/-- Fuelled left-to-right scanner behind the model of Python
`s.split(sep)`: at each position, a non-overlapping occurrence of `sep`
cuts the string; fuel bounds the recursion and is always at least the
length of the remaining input. -/
def pySplitF (sep : List Char) : Nat → List Char → List (List Char)
  | 0, s => [s]
  | Nat.succ _, [] => [[]]
  | Nat.succ fuel, c :: rest =>
      if isPrefOf sep (c :: rest) && !sep.isEmpty then
        [] :: pySplitF sep fuel ((c :: rest).drop sep.length)
      else
        List.modifyHead (fun chunk => c :: chunk) (pySplitF sep fuel rest)

/-- Model of Python `s.split(sep)` for a non-empty separator: the list of
chunks between consecutive non-overlapping occurrences of `sep`, scanned
left to right. `"XabXcd".split("X") = ["", "ab", "cd"]`. -/
def pySplit (sep s : List Char) : List (List Char) :=
  pySplitF sep s.length s

/-- Whitespace characters removed by Python `str.strip()` (ASCII range). -/
def isSpaceChar (c : Char) : Bool :=
  c = ' ' || c = '\t' || c = '\n' || c = '\x0d' || c = '\x0b' || c = '\x0c'

/-- Model of Python `s.strip()`: remove leading and trailing whitespace. -/
def pyStrip (s : List Char) : List Char :=
  ((s.dropWhile isSpaceChar).reverse.dropWhile isSpaceChar).reverse

/-- Number of positions of `s` at which `sep` occurs (for a non-empty
`sep` this counts all occurrences, overlapping ones included; the claims
only use occurrence counts 0 and 1, where the two notions agree). -/
def countOcc (sep s : List Char) : Nat :=
  ((List.range s.length).filter (fun i => isPrefOf sep (s.drop i))).length

/-
  Embedding of `bot.py` `search_with_agent` (lines 54-91).

  The agent run is abstracted as its outcome: `Except.error` when
  `agent.run` raises, `Except.ok content` otherwise, with `content` the
  dynamic value `run.content`. Records produced by the normalization are
  kept as Python dicts (association lists), so that "has exactly the keys
  title, link, snippet" is a real statement about the result.
-/

/-- One normalized record of the list comprehensions at `bot.py` lines
68-72 and 76-80: `item.get` with the documented defaults. -/
def item_record (d : List (String × PyVal)) : List (String × PyVal) :=
  [("title", pyGet d "title" (.str "No title")),
   ("link", pyGet d "link" (.str "")),
   ("snippet", pyGet d "snippet" (.str ""))]

/-- Per-item step of the comprehensions in `search_with_agent`: Python
`item.get(...)` on a non-dict raises `AttributeError`, modelled as
`Except.error`. -/
def normItem : PyVal → Except String (List (String × PyVal))
  | .dict d => .ok (item_record d)
  | _ => .error "AttributeError"

/-- Embedding of `bot.py` `search_with_agent`. The outer `try/except`
turns any raise — from `agent.run` itself or from the per-item field
accesses — into the empty result list. Branch order follows the source:
plain string, dict with a `results` key, list, catch-all `str(content)`.
A dict whose `results` value is not a list of dicts makes the iteration
or the item accesses raise, which the handler converts to `[]`. -/
def search_with_agent (run : Except String PyVal) :
    List (List (String × PyVal)) :=
  match run with
  | .error _ => []
  | .ok content =>
    match content with
    | .str s =>
        [[("title", .str "Search Result"), ("link", .str ""),
          ("snippet", .str s)]]
    | .dict d =>
        match d.lookup "results" with
        | some (.list items) =>
            match items.mapM normItem with
            | .ok recs => recs
            | .error _ => []
        | some _ => []
        | Option.none =>
            [[("title", .str "Search Result"), ("link", .str ""),
              ("snippet", .str (pyStr content))]]
    | .list items =>
        match items.mapM normItem with
        | .ok recs => recs
        | .error _ => []
    | other =>
        [[("title", .str "Search Result"), ("link", .str ""),
          ("snippet", .str (pyStr other))]]

/-
  Embedding of the generation operations.

  The model endpoint is abstracted as a function from the built prompt to
  an outcome: `Except.error` when the underlying call raises, `Except.ok`
  with the reply text otherwise.
-/

/-- Article record as produced by `fetch_trending_articles` and consumed
by the news.py generators. -/
structure Article where
  title : String
  description : String
  content : String
  url : String

/-- Prompt of `bot.py` `generate_content_ideas` (lines 106-113). -/
def contentIdeasPrompt (keywords : List String) : String :=
  "Given these keywords: " ++ String.intercalate ", " keywords ++
  "\n        Generate 5 content ideas that would be interesting and engaging.\n        For each idea, provide:\n        1. A catchy title\n        2. A brief description\n        3. Key points to cover\n        \n        Format the output in markdown."

/-- Embedding of `bot.py` `generate_content_ideas` (lines 93-119): the
whole body sits in a `try` whose handler returns the fallback string, so
a raising endpoint call yields the placeholder and nothing propagates. -/
def generate_content_ideas (model : String → Except String String)
    (keywords : List String) : String :=
  match model (contentIdeasPrompt keywords) with
  | .ok content => content
  | .error _ => "Failed to generate content ideas."

/-- Prompt of `news.py` `generate_social_posts` (lines 50-67). -/
def socialPostsPrompt (article : Article) : String :=
  "\n    Based on this news article:\n    Title: " ++ article.title ++
  "\n    Description: " ++ article.description ++
  "\n    \n    Create three social media posts with these exact headers:\n\n    Twitter Post:\n    [Create a Twitter post here with hashtags, max 280 chars]\n\n    LinkedIn Post:\n    [Create a LinkedIn post here with professional tone]\n\n    Instagram Post:\n    [Create an Instagram post here with hashtags]\n\n    Make sure to keep the headers exactly as shown above.\n    "

/-- Embedding of `news.py` `generate_social_posts` (lines 33-70): there
is no `try/except` in this function, so a raising endpoint call
propagates to the caller; the value is `response.content` otherwise. -/
def generate_social_posts (model : String → Except String String)
    (article : Article) : Except String String :=
  model (socialPostsPrompt article)

/-- Prompt of `news.py` `generate_content_ideas_from_article`
(lines 85-102). -/
def articleIdeasPrompt (article : Article) : String :=
  "\n    Based on this news article:\n    Title: " ++ article.title ++
  "\n    Description: " ++ article.description ++
  "\n    URL: " ++ article.url ++
  "\n    \n    Generate 5 creative content ideas that could be created from this news:\n    \n    For each idea include:\n    1. Content format (video, blog, infographic, etc.)\n    2. Target platform\n    3. Main angle/hook\n    4. Key points to cover\n    5. Potential hashtags\n    \n    Make ideas specific and actionable.\n    Format in clear markdown with sections.\n    "

/-- Embedding of `news.py` `generate_content_ideas_from_article`
(lines 72-105): no `try/except`, a raising endpoint call propagates. -/
def generate_content_ideas_from_article
    (model : String → Except String String) (article : Article) :
    Except String String :=
  model (articleIdeasPrompt article)

/-- Prompt of `news.py` `generate_linkedin_post` (lines 121-136). -/
def linkedinPrompt (article : Article) (content_idea : String) : String :=
  "\n    Based on this news article and content idea:\n    Article Title: " ++
  article.title ++
  "\n    Article Description: " ++ article.description ++
  "\n    Content Idea: " ++ content_idea ++
  "\n    \n    Create a LinkedIn post with the following structure:\n    1. Hook (attention-grabbing first line)\n    2. Interest Peak (compelling statement or statistic)\n    3. Body (main content with insights, structured in 2-3 paragraphs)\n    4. Call-to-Action (engaging CTA)\n    5. 3-5 Relevant Hashtags\n    \n    Use appropriate emojis and line breaks for better readability.\n    Format the post in markdown.\n    "

/-- Embedding of `news.py` `generate_linkedin_post` (lines 107-139): no
`try/except`, a raising endpoint call propagates. -/
def generate_linkedin_post (model : String → Except String String)
    (article : Article) (content_idea : String) : Except String String :=
  model (linkedinPrompt article content_idea)

/-
  Embedding of `news.py` `fetch_trending_articles` (lines 5-31).

  The HTTP layer is abstracted as a map from keyword to the response it
  returns: a status code plus the decoded JSON body. The function has no
  `try/except`, so a raise while processing one keyword (malformed JSON
  shape) aborts the whole call; a non-200 status only prints and moves to
  the next keyword.
-/

/-- Response of the news API for one keyword: status code and JSON body. -/
structure NewsResponse where
  status_code : Nat
  body : PyVal

/-- Article record built at `news.py` lines 22-27, with empty-string
defaults for absent fields. -/
def article_record (ad : List (String × PyVal)) : List (String × PyVal) :=
  [("title", pyGet ad "title" (.str "")),
   ("description", pyGet ad "description" (.str "")),
   ("content", pyGet ad "content" (.str "")),
   ("url", pyGet ad "url" (.str ""))]

/-- Processing of one keyword inside the `fetch_trending_articles` loop:
non-200 status contributes nothing; a 200 body that is not a dict, or
whose `articles` value is not a list of dicts, raises (modelled as
`Except.error`). -/
def processKeyword (resp : NewsResponse) :
    Except String (List (List (String × PyVal))) :=
  if resp.status_code = 200 then
    match resp.body with
    | .dict d =>
        match pyGet d "articles" (.list []) with
        | .list items =>
            items.mapM (fun a =>
              match a with
              | .dict ad => .ok (article_record ad)
              | _ => .error "AttributeError")
        | _ => .error "TypeError"
    | _ => .error "AttributeError"
  else
    .ok []

/-- Embedding of `news.py` `fetch_trending_articles`: accumulate the
per-keyword article records in order; an uncaught raise aborts the whole
call. -/
def fetch_trending_articles (responses : String → NewsResponse) :
    List String → Except String (List (List (String × PyVal)))
  | [] => .ok []
  | k :: ks => do
      let arts ← processKeyword (responses k)
      let rest ← fetch_trending_articles responses ks
      pure (arts ++ rest)

/-
  Embedding of the startup key validation of `bot.py` (lines 21-34) and
  of the "Start Research" search loop (lines 154-159).
-/

/-- Python falsiness of an `os.getenv` result: `None` and the empty
string are both falsy. -/
def pyFalsy (o : Option String) : Bool :=
  match o with
  | Option.none => true
  | some s => s.isEmpty

/-- Groq model configuration constructed at `bot.py` lines 31-34; only
built after both key checks pass. -/
structure GroqModel where
  id : String
  api_key : String

/-- Embedding of the module-level startup of `bot.py`: read the two keys
from the environment, raise (lines 25-28) when either is falsy, and only
then construct the Groq model (line 31). An `Except.error` result means
no model or agent was ever constructed and no network call was made. -/
def startup (env : String → Option String) : Except String GroqModel :=
  if pyFalsy (env "GROQ_API_KEY") then
    .error "Missing required GROQ API key. Please check your .env file."
  else if pyFalsy (env "NEWS_API_KEY") then
    .error "Missing required News API key. Please check your .env file."
  else
    .ok { id := "llama-3.3-70b-versatile",
          api_key := (env "GROQ_API_KEY").getD "" }

/-- Embedding of the "Start Research" search loop (`bot.py` lines
154-159): for each keyword, run the search agent and extend the
accumulated results with the first `max_results` entries
(`ddg_results[:max_results]`). -/
def research_search_loop (agentResp : String → Except String PyVal)
    (keywords : List String) (max_results : Nat) :
    List (List (String × PyVal)) :=
  keywords.foldl
    (fun acc k => acc ++ (search_with_agent (agentResp k)).take max_results)
    []

/-
  Embedding of the social-posts section extraction of `bot.py`
  (lines 206-242).
-/

/-- Literal header "Twitter Post:" used by the extraction. -/
def twHdr : List Char := "Twitter Post:".data

/-- Literal header "LinkedIn Post:" used by the extraction. -/
def liHdr : List Char := "LinkedIn Post:".data

/-- Literal header "Instagram Post:" used by the extraction. -/
def igHdr : List Char := "Instagram Post:".data

/-- Placeholder of the Twitter `except IndexError` branch. -/
def twErr : List Char := "Error generating Twitter content".data

/-- Placeholder of the LinkedIn `except IndexError` branch. -/
def liErr : List Char := "Error generating LinkedIn content".data

/-- Placeholder of the Instagram `except IndexError` branch. -/
def igErr : List Char := "Error generating Instagram content".data

/-- Embedding of `bot.py` lines 207-210:
`social_content.split("Twitter Post:")[1].split("LinkedIn Post:")[0].strip()`
with `IndexError` (the `[1]` on a one-chunk split) caught and replaced by
the placeholder. -/
def twitter_content (s : List Char) : List Char :=
  match (pySplit twHdr s)[1]? with
  | Option.none => twErr
  | some t => pyStrip ((pySplit liHdr t).headD [])

/-- Embedding of `bot.py` lines 220-223:
`social_content.split("LinkedIn Post:")[1].split("Instagram Post:")[0].strip()`
with `IndexError` caught and replaced by the placeholder. -/
def linkedin_content (s : List Char) : List Char :=
  match (pySplit liHdr s)[1]? with
  | Option.none => liErr
  | some t => pyStrip ((pySplit igHdr t).headD [])

/-- Embedding of `bot.py` lines 233-236:
`social_content.split("Instagram Post:")[1].strip()` with `IndexError`
caught and replaced by the placeholder. -/
def instagram_content (s : List Char) : List Char :=
  match (pySplit igHdr s)[1]? with
  | Option.none => igErr
  | some t => pyStrip t

/-- Raw model output shaped as the three ordered sections with a prefix
`p` before the first header and bodies `a`, `b`, `c`. -/
def socialRaw (p a b c : List Char) : List Char :=
  p ++ (twHdr ++ (a ++ (liHdr ++ (b ++ (igHdr ++ c)))))

/-- Raw model output with the LinkedIn header missing: a prefix, the
Twitter header, a middle part, the Instagram header, a tail. -/
def socialRawNoLi (p m c : List Char) : List Char :=
  p ++ (twHdr ++ (m ++ (igHdr ++ c)))

/-
  Lemmas about the `str.split` model.
-/

/-- Boolean prefix test agrees with the `<+:` relation. -/
lemma isPrefOf_iff : ∀ u v : List Char, isPrefOf u v = true ↔ u <+: v
  | [], v => by simp [isPrefOf]
  | a :: xs, [] => by simp [isPrefOf]
  | a :: xs, b :: ys => by
      simp [isPrefOf, List.cons_prefix_cons, isPrefOf_iff xs ys]

/-- Fuel does not matter as long as it dominates the input length. -/
lemma pySplitF_congr (sep : List Char) :
    ∀ (f₁ : Nat) (s : List Char) (f₂ : Nat), s.length ≤ f₁ → s.length ≤ f₂ →
      pySplitF sep f₁ s = pySplitF sep f₂ s := by
  intro f₁
  induction f₁ with
  | zero =>
      intro s f₂ h1 _
      have hs : s = [] := by
        cases s with
        | nil => rfl
        | cons c rest => simp at h1
      subst hs
      cases f₂ <;> rfl
  | succ f ih =>
      intro s f₂ h1 h2
      cases s with
      | nil => cases f₂ <;> rfl
      | cons c rest =>
          cases f₂ with
          | zero => simp at h2
          | succ g =>
              show pySplitF sep (f + 1) (c :: rest) =
                pySplitF sep (g + 1) (c :: rest)
              simp only [pySplitF]
              simp only [List.length_cons] at h1 h2
              by_cases hc : (isPrefOf sep (c :: rest) && !sep.isEmpty) = true
              · rw [if_pos hc, if_pos hc]
                have hsep : sep ≠ [] := by
                  intro h
                  subst h
                  simp at hc
                have hsp : 1 ≤ sep.length := List.length_pos.mpr hsep
                have hd : ((c :: rest).drop sep.length).length =
                    rest.length + 1 - sep.length := by
                  simp [List.length_drop]
                have hlen : ((c :: rest).drop sep.length).length ≤ f := by
                  rw [hd]
                  omega
                have hlen2 : ((c :: rest).drop sep.length).length ≤ g := by
                  rw [hd]
                  omega
                rw [ih _ g hlen hlen2]
              · rw [if_neg hc, if_neg hc]
                have hlen : rest.length ≤ f := by omega
                have hlen2 : rest.length ≤ g := by omega
                rw [ih _ g hlen hlen2]

/-- Splitting a string in which the separator does not occur returns the
string as the only chunk. -/
lemma pySplit_noOcc (sep : List Char) :
    ∀ s : List Char, (∀ i, i < s.length → ¬ sep <+: s.drop i) →
      pySplit sep s = [s] := by
  intro s
  induction s with
  | nil => intro _; rfl
  | cons c rest ih =>
      intro h
      have h0 : ¬ sep <+: (c :: rest) := by
        have := h 0 (by simp)
        simpa using this
      have hp : isPrefOf sep (c :: rest) = false := by
        rw [← Bool.not_eq_true, isPrefOf_iff]
        exact h0
      show pySplitF sep (rest.length + 1) (c :: rest) = [c :: rest]
      simp only [pySplitF, hp, Bool.false_and, if_neg Bool.false_ne_true]
      have hrest : ∀ i, i < rest.length → ¬ sep <+: rest.drop i := by
        intro i hi
        have := h (i + 1) (by simp; omega)
        simpa using this
      have := ih hrest
      unfold pySplit at this
      rw [this]
      rfl

/-- Splitting `u ++ sep ++ v` where `sep` has no occurrence starting
inside `u` cuts exactly at the displayed occurrence. -/
lemma pySplit_cons (sep v : List Char) (hsep : sep ≠ []) :
    ∀ (u : List Char) (fuel : Nat), (u ++ (sep ++ v)).length ≤ fuel →
      (∀ i, i < u.length → ¬ sep <+: (u ++ (sep ++ v)).drop i) →
      pySplitF sep fuel (u ++ (sep ++ v)) = u :: pySplit sep v := by
  intro u
  induction u with
  | nil =>
      intro fuel hfuel _
      simp only [List.nil_append] at hfuel ⊢
      cases sep with
      | nil => exact absurd rfl hsep
      | cons a sep' =>
          cases fuel with
          | zero => simp at hfuel
          | succ f =>
              show pySplitF (a :: sep') (f + 1) (a :: (sep' ++ v)) = _
              have hpre : isPrefOf (a :: sep') (a :: (sep' ++ v)) = true := by
                rw [isPrefOf_iff]
                exact List.prefix_append (a :: sep') v
              simp only [pySplitF, hpre, List.isEmpty_cons, Bool.not_false,
                Bool.and_self, if_pos]
              have hdrop : (a :: (sep' ++ v)).drop (a :: sep').length = v := by
                have : a :: (sep' ++ v) = (a :: sep') ++ v := by simp
                rw [this, List.drop_left]
              rw [hdrop]
              have hlen : v.length ≤ f := by
                simp only [List.length_append, List.length_cons] at hfuel
                omega
              rw [pySplitF_congr (a :: sep') f v v.length hlen (le_refl _)]
              rfl
  | cons c u' ih =>
      intro fuel hfuel h
      cases fuel with
      | zero => simp at hfuel
      | succ f =>
          have h0 : ¬ sep <+: ((c :: u') ++ (sep ++ v)) := by
            have := h 0 (by simp)
            simpa using this
          have hp : isPrefOf sep ((c :: u') ++ (sep ++ v)) = false := by
            rw [← Bool.not_eq_true, isPrefOf_iff]
            exact h0
          show pySplitF sep (f + 1) (c :: (u' ++ (sep ++ v))) = _
          have hp' : isPrefOf sep (c :: (u' ++ (sep ++ v))) = false := by
            simpa using hp
          simp only [pySplitF, hp', Bool.false_and, if_neg Bool.false_ne_true]
          have hu' : ∀ i, i < u'.length → ¬ sep <+: (u' ++ (sep ++ v)).drop i := by
            intro i hi
            have := h (i + 1) (by simp; omega)
            simpa using this
          have hlen : (u' ++ (sep ++ v)).length ≤ f := by
            simp only [List.length_append, List.length_cons] at hfuel ⊢
            omega
          rw [ih f hlen hu']
          rfl

/-- Wrapper of `pySplit_cons` for the wrapper function `pySplit`. -/
lemma pySplit_cut (sep u v : List Char) (hsep : sep ≠ [])
    (h : ∀ i, i < u.length → ¬ sep <+: (u ++ (sep ++ v)).drop i) :
    pySplit sep (u ++ (sep ++ v)) = u :: pySplit sep v :=
  pySplit_cons sep v hsep u (u ++ (sep ++ v)).length (le_refl _) h

/-- Occurrences shift across a prepended block. -/
lemma prefix_drop_shift (sep u v : List Char) (i : Nat)
    (h : sep <+: v.drop i) : sep <+: (u ++ v).drop (u.length + i) := by
  have e : (u ++ v).drop (u.length + i) = v.drop i := by
    rw [← List.drop_drop, List.drop_left]
  rw [e]
  exact h

/-- Occurrence positions are bounded for a non-empty separator. -/
lemma occ_lt_length (sep s : List Char) (hsep : sep ≠ []) {i : Nat}
    (h : sep <+: s.drop i) : i < s.length := by
  by_contra hlen
  push_neg at hlen
  rw [List.drop_eq_nil_of_le hlen] at h
  exact hsep (List.prefix_nil.mp h)

/-- Characterization of occurrence count zero. -/
lemma countOcc_eq_zero_iff (sep s : List Char) :
    countOcc sep s = 0 ↔ ∀ i, i < s.length → ¬ sep <+: s.drop i := by
  unfold countOcc
  rw [List.length_eq_zero, List.filter_eq_nil_iff]
  constructor
  · intro h i hi hocc
    exact h i (List.mem_range.mpr hi) ((isPrefOf_iff _ _).mpr hocc)
  · intro h i hi hocc
    exact h i (List.mem_range.mp hi) ((isPrefOf_iff _ _).mp hocc)

/-- A separator with occurrence count one occurs at a single position. -/
lemma countOcc_unique (sep s : List Char) (hsep : sep ≠ [])
    (h1 : countOcc sep s = 1) {j : Nat} (hj : sep <+: s.drop j) :
    ∀ i, sep <+: s.drop i → i = j := by
  unfold countOcc at h1
  obtain ⟨x, hx⟩ := List.length_eq_one.mp h1
  have hmem : ∀ k, sep <+: s.drop k →
      k ∈ (List.range s.length).filter (fun i => isPrefOf sep (s.drop i)) := by
    intro k hk
    exact List.mem_filter.mpr
      ⟨List.mem_range.mpr (occ_lt_length sep s hsep hk),
       (isPrefOf_iff _ _).mpr hk⟩
  have hjx : j = x := by
    have := hmem j hj
    rw [hx] at this
    simpa using this
  intro i hi
  have := hmem i hi
  rw [hx] at this
  simp at this
  omega

/-- At the displayed junction of `u ++ (sep ++ v)` the separator occurs. -/
lemma prefix_at_junction (sep u v : List Char) :
    sep <+: (u ++ (sep ++ v)).drop u.length := by
  rw [List.drop_left]
  exact List.prefix_append sep v

/-- Splitting on a separator that occurs exactly once, at the displayed
junction, yields exactly the two surrounding chunks. -/
lemma split_once (sep u v : List Char) (hsep : sep ≠ [])
    (h1 : countOcc sep (u ++ (sep ++ v)) = 1) :
    pySplit sep (u ++ (sep ++ v)) = [u, v] := by
  have huniq := countOcc_unique sep (u ++ (sep ++ v)) hsep h1
    (prefix_at_junction sep u v)
  have hu : ∀ i, i < u.length → ¬ sep <+: (u ++ (sep ++ v)).drop i := by
    intro i hi hocc
    have := huniq i hocc
    omega
  rw [pySplit_cut sep u v hsep hu]
  have hv : ∀ i, i < v.length → ¬ sep <+: v.drop i := by
    intro i _ hocc
    have hshift := prefix_drop_shift sep (u ++ sep) v i hocc
    rw [List.append_assoc] at hshift
    have := huniq ((u ++ sep).length + i) hshift
    have hpos : 0 < sep.length := by
      cases sep with
      | nil => exact absurd rfl hsep
      | cons x xs => simp
    simp only [List.length_append] at this
    omega
  rw [pySplit_noOcc sep v hv]

/-- First chunk of a cut split. -/
lemma split_head_cut (sep u v : List Char) (hsep : sep ≠ [])
    (h : ∀ i, i < u.length → ¬ sep <+: (u ++ (sep ++ v)).drop i) :
    (pySplit sep (u ++ (sep ++ v))).headD [] = u := by
  rw [pySplit_cut sep u v hsep h]
  rfl

/-- Reduction of `twitter_content` when the first split has a second
chunk. -/
lemma twitter_content_eq (s t : List Char)
    (h : (pySplit twHdr s)[1]? = some t) :
    twitter_content s = pyStrip ((pySplit liHdr t).headD []) := by
  unfold twitter_content
  rw [h]

/-- Reduction of `linkedin_content` when the first split has a second
chunk. -/
lemma linkedin_content_eq (s t : List Char)
    (h : (pySplit liHdr s)[1]? = some t) :
    linkedin_content s = pyStrip ((pySplit igHdr t).headD []) := by
  unfold linkedin_content
  rw [h]

/-- Reduction of `linkedin_content` in the `IndexError` case. -/
lemma linkedin_content_none (s : List Char)
    (h : (pySplit liHdr s)[1]? = Option.none) :
    linkedin_content s = liErr := by
  unfold linkedin_content
  rw [h]

/-- Reduction of `instagram_content` when the first split has a second
chunk. -/
lemma instagram_content_eq (s t : List Char)
    (h : (pySplit igHdr s)[1]? = some t) :
    instagram_content s = pyStrip t := by
  unfold instagram_content
  rw [h]

/-- Core extraction lemma: when each header occurs exactly once and in
order, each channel gets exactly its own section, trimmed. -/
lemma extract_all (p a b c : List Char)
    (h1 : countOcc twHdr (socialRaw p a b c) = 1)
    (h2 : countOcc liHdr (socialRaw p a b c) = 1)
    (h3 : countOcc igHdr (socialRaw p a b c) = 1) :
    twitter_content (socialRaw p a b c) = pyStrip a ∧
    linkedin_content (socialRaw p a b c) = pyStrip b ∧
    instagram_content (socialRaw p a b c) = pyStrip c := by
  have htw : twHdr ≠ [] := by decide
  have hli : liHdr ≠ [] := by decide
  have hig : igHdr ≠ [] := by decide
  have hT2 : socialRaw p a b c =
      (p ++ (twHdr ++ a)) ++ (liHdr ++ (b ++ (igHdr ++ c))) := by
    simp [socialRaw, List.append_assoc]
  have hT3 : socialRaw p a b c =
      (p ++ (twHdr ++ (a ++ (liHdr ++ b)))) ++ (igHdr ++ c) := by
    simp [socialRaw, List.append_assoc]
  have uLi : ∀ i, liHdr <+: (socialRaw p a b c).drop i →
      i = (p ++ (twHdr ++ a)).length := by
    have hj : liHdr <+: (socialRaw p a b c).drop (p ++ (twHdr ++ a)).length := by
      rw [hT2]
      exact prefix_at_junction liHdr _ _
    exact countOcc_unique liHdr _ hli h2 hj
  have uIg : ∀ i, igHdr <+: (socialRaw p a b c).drop i →
      i = (p ++ (twHdr ++ (a ++ (liHdr ++ b)))).length := by
    have hj : igHdr <+: (socialRaw p a b c).drop
        (p ++ (twHdr ++ (a ++ (liHdr ++ b)))).length := by
      rw [hT3]
      exact prefix_at_junction igHdr _ _
    exact countOcc_unique igHdr _ hig h3 hj
  -- Twitter: outer split on the Twitter header, then first chunk of the
  -- split on the LinkedIn header.
  have s1 : pySplit twHdr (socialRaw p a b c) =
      [p, a ++ (liHdr ++ (b ++ (igHdr ++ c)))] :=
    split_once twHdr p _ htw h1
  have s1g : (pySplit twHdr (socialRaw p a b c))[1]? =
      some (a ++ (liHdr ++ (b ++ (igHdr ++ c)))) := by
    rw [s1]
    rfl
  have s2 : (pySplit liHdr (a ++ (liHdr ++ (b ++ (igHdr ++ c))))).headD [] = a := by
    apply split_head_cut liHdr a _ hli
    intro i hi hocc
    have hsh := prefix_drop_shift liHdr (p ++ twHdr) _ i hocc
    have heq : (p ++ twHdr) ++ (a ++ (liHdr ++ (b ++ (igHdr ++ c)))) =
        socialRaw p a b c := by
      simp [socialRaw, List.append_assoc]
    rw [heq] at hsh
    have := uLi _ hsh
    simp only [List.length_append] at this
    omega
  have tw : twitter_content (socialRaw p a b c) = pyStrip a := by
    rw [twitter_content_eq _ _ s1g, s2]
  -- LinkedIn: outer split on the LinkedIn header, then first chunk of
  -- the split on the Instagram header.
  have h2' : countOcc liHdr ((p ++ (twHdr ++ a)) ++ (liHdr ++ (b ++ (igHdr ++ c)))) = 1 := by
    rw [← hT2]
    exact h2
  have s3 : pySplit liHdr ((p ++ (twHdr ++ a)) ++ (liHdr ++ (b ++ (igHdr ++ c)))) =
      [p ++ (twHdr ++ a), b ++ (igHdr ++ c)] :=
    split_once liHdr _ _ hli h2'
  have s3g : (pySplit liHdr (socialRaw p a b c))[1]? = some (b ++ (igHdr ++ c)) := by
    rw [hT2, s3]
    rfl
  have s4 : (pySplit igHdr (b ++ (igHdr ++ c))).headD [] = b := by
    apply split_head_cut igHdr b _ hig
    intro i hi hocc
    have hsh := prefix_drop_shift igHdr (p ++ (twHdr ++ (a ++ liHdr))) _ i hocc
    have heq : (p ++ (twHdr ++ (a ++ liHdr))) ++ (b ++ (igHdr ++ c)) =
        socialRaw p a b c := by
      simp [socialRaw, List.append_assoc]
    rw [heq] at hsh
    have := uIg _ hsh
    simp only [List.length_append] at this
    omega
  have li : linkedin_content (socialRaw p a b c) = pyStrip b := by
    rw [linkedin_content_eq _ _ s3g, s4]
  -- Instagram: outer split on the Instagram header; the tail is the
  -- section itself.
  have h3' : countOcc igHdr
      ((p ++ (twHdr ++ (a ++ (liHdr ++ b)))) ++ (igHdr ++ c)) = 1 := by
    rw [← hT3]
    exact h3
  have s5 : pySplit igHdr ((p ++ (twHdr ++ (a ++ (liHdr ++ b)))) ++ (igHdr ++ c)) =
      [p ++ (twHdr ++ (a ++ (liHdr ++ b))), c] :=
    split_once igHdr _ _ hig h3'
  have s5g : (pySplit igHdr (socialRaw p a b c))[1]? = some c := by
    rw [hT3, s5]
    rfl
  have ig : instagram_content (socialRaw p a b c) = pyStrip c := by
    rw [instagram_content_eq _ _ s5g]
  exact ⟨tw, li, ig⟩

/-- Core degraded-extraction lemma: with the LinkedIn header absent, the
LinkedIn entry is the placeholder, the Instagram entry is its own tail
section, and the Twitter entry runs to the end of the text, Instagram
section included. -/
lemma extract_noLi (p m c : List Char)
    (h1 : countOcc twHdr (socialRawNoLi p m c) = 1)
    (h0 : countOcc liHdr (socialRawNoLi p m c) = 0)
    (h3 : countOcc igHdr (socialRawNoLi p m c) = 1) :
    linkedin_content (socialRawNoLi p m c) = liErr ∧
    twitter_content (socialRawNoLi p m c) = pyStrip (m ++ (igHdr ++ c)) ∧
    instagram_content (socialRawNoLi p m c) = pyStrip c := by
  have htw : twHdr ≠ [] := by decide
  have hig : igHdr ≠ [] := by decide
  have hno := (countOcc_eq_zero_iff liHdr (socialRawNoLi p m c)).mp h0
  -- LinkedIn: the split on the absent header has a single chunk and the
  -- subscript `[1]` hits the `IndexError` handler.
  have sLi : pySplit liHdr (socialRawNoLi p m c) = [socialRawNoLi p m c] :=
    pySplit_noOcc liHdr _ hno
  have li : linkedin_content (socialRawNoLi p m c) = liErr := by
    apply linkedin_content_none
    rw [sLi]
    rfl
  -- Twitter: the cut at the absent LinkedIn header never happens, so the
  -- chunk after the Twitter header runs to the end of the text.
  have s1 : pySplit twHdr (socialRawNoLi p m c) = [p, m ++ (igHdr ++ c)] :=
    split_once twHdr p _ htw h1
  have s1g : (pySplit twHdr (socialRawNoLi p m c))[1]? =
      some (m ++ (igHdr ++ c)) := by
    rw [s1]
    rfl
  have s2 : (pySplit liHdr (m ++ (igHdr ++ c))).headD [] = m ++ (igHdr ++ c) := by
    have hnoM : ∀ i, i < (m ++ (igHdr ++ c)).length →
        ¬ liHdr <+: (m ++ (igHdr ++ c)).drop i := by
      intro i hi hocc
      have hsh := prefix_drop_shift liHdr (p ++ twHdr) _ i hocc
      have heq : (p ++ twHdr) ++ (m ++ (igHdr ++ c)) = socialRawNoLi p m c := by
        simp [socialRawNoLi, List.append_assoc]
      rw [heq] at hsh
      have hlt : (p ++ twHdr).length + i < (socialRawNoLi p m c).length := by
        simp only [socialRawNoLi, List.length_append]
        simp only [List.length_append] at hi
        omega
      exact hno _ hlt hsh
    rw [pySplit_noOcc liHdr _ hnoM]
    rfl
  have tw : twitter_content (socialRawNoLi p m c) = pyStrip (m ++ (igHdr ++ c)) := by
    rw [twitter_content_eq _ _ s1g, s2]
  -- Instagram: normal extraction of the tail section.
  have hT2 : socialRawNoLi p m c = (p ++ (twHdr ++ m)) ++ (igHdr ++ c) := by
    simp [socialRawNoLi, List.append_assoc]
  have h3' : countOcc igHdr ((p ++ (twHdr ++ m)) ++ (igHdr ++ c)) = 1 := by
    rw [← hT2]
    exact h3
  have s5 : pySplit igHdr ((p ++ (twHdr ++ m)) ++ (igHdr ++ c)) =
      [p ++ (twHdr ++ m), c] :=
    split_once igHdr _ _ hig h3'
  have s5g : (pySplit igHdr (socialRawNoLi p m c))[1]? = some c := by
    rw [hT2, s5]
    rfl
  have ig : instagram_content (socialRawNoLi p m c) = pyStrip c := by
    rw [instagram_content_eq _ _ s5g]
  exact ⟨li, tw, ig⟩

/-- Normalizing a list of dicts succeeds and produces one record per
item. -/
lemma mapM_normItem_dicts :
    ∀ ds : List (List (String × PyVal)),
      (ds.map PyVal.dict).mapM normItem = Except.ok (ds.map item_record)
  | [] => rfl
  | d :: ds => by
      simp only [List.map_cons, List.mapM_cons, mapM_normItem_dicts ds,
        normItem]
      rfl

/-- When normalization of a list succeeds, every item was a dict. -/
lemma mapM_normItem_ok_dict :
    ∀ (items : List PyVal) (recs : List (List (String × PyVal))),
      items.mapM normItem = Except.ok recs →
      ∀ x ∈ items, ∃ d, x = PyVal.dict d := by
  intro items
  induction items with
  | nil => simp
  | cons y ys ih =>
      intro recs h x hx
      rw [List.mapM_cons] at h
      cases hy : normItem y with
      | error e =>
          rw [hy] at h
          exact Except.noConfusion h
      | ok r =>
          rw [hy] at h
          cases hys : ys.mapM normItem with
          | error e =>
              rw [hys] at h
              exact Except.noConfusion h
          | ok rs =>
              rcases List.mem_cons.mp hx with hxy | hxys
              · subst hxy
                cases x with
                | dict d => exact ⟨d, rfl⟩
                | str s => exact absurd hy (by simp [normItem])
                | int n => exact absurd hy (by simp [normItem])
                | none => exact absurd hy (by simp [normItem])
                | list l => exact absurd hy (by simp [normItem])
              · exact ih rs hys x hxys

/-- Folding list-append over a list is the flattened per-element map. -/
lemma foldl_append_join {α β : Type} (f : α → List β) :
    ∀ (ks : List α) (acc : List β),
      ks.foldl (fun a k => a ++ f k) acc = acc ++ (ks.map f).flatten := by
  intro ks
  induction ks with
  | nil => intro acc; simp
  | cons k ks ih =>
      intro acc
      simp only [List.foldl_cons, List.map_cons, List.flatten_cons, ih,
        List.append_assoc]

/-- Length bound of a flattened map whose pieces are each bounded. -/
lemma join_length_le {α β : Type} (f : α → List β) (L : Nat)
    (hf : ∀ k, (f k).length ≤ L) :
    ∀ ks : List α, ((ks.map f).flatten).length ≤ L * ks.length := by
  intro ks
  induction ks with
  | nil => simp
  | cons k ks ih =>
      simp only [List.map_cons, List.flatten_cons, List.length_append,
        List.length_cons]
      have hk := hf k
      have hmul : L * (ks.length + 1) = L * ks.length + L := by ring
      omega

/-- Reduction of `search_with_agent` on a list whose normalization
succeeds. -/
lemma search_list_eq (items : List PyVal)
    (recs : List (List (String × PyVal)))
    (h : items.mapM normItem = Except.ok recs) :
    search_with_agent (Except.ok (PyVal.list items)) = recs := by
  simp only [search_with_agent]
  rw [h]

/-- Reduction of `search_with_agent` on a dict whose `results` list
normalizes successfully. -/
lemma search_dict_results_eq (d : List (String × PyVal))
    (items : List PyVal) (recs : List (List (String × PyVal)))
    (hres : d.lookup "results" = some (PyVal.list items))
    (h : items.mapM normItem = Except.ok recs) :
    search_with_agent (Except.ok (PyVal.dict d)) = recs := by
  simp only [search_with_agent]
  rw [hres]
  change (match items.mapM normItem with
    | Except.ok recs => recs
    | Except.error _ => ([] : List (List (String × PyVal)))) = recs
  rw [h]

/-
  Claim theorems.
-/

/-- Claim C1, counterexample: the claim says that when the underlying
model call raises, every generation operation returns its fallback
placeholder and no exception escapes; but `generate_social_posts` has no
handler, so with an endpoint that raises the call propagates the
exception to its caller instead of returning any placeholder string. -/
theorem C1_counterexample :
    generate_social_posts (fun _ => Except.error "boom")
      { title := "T", description := "D", content := "C", url := "U" } =
      Except.error "boom" := rfl

/-- Claim C1, amended: when the model-generation call raises,
`generate_content_ideas` (bot.py) catches the exception and returns the
fallback "Failed to generate content ideas.", but the three news.py
generators (`generate_social_posts`, `generate_content_ideas_from_article`,
`generate_linkedin_post`) contain no handler and propagate the exception
to their caller. -/
theorem C1_amended (e : String) (keywords : List String)
    (article : Article) (idea : String) :
    generate_content_ideas (fun _ => Except.error e) keywords =
      "Failed to generate content ideas." ∧
    generate_social_posts (fun _ => Except.error e) article =
      Except.error e ∧
    generate_content_ideas_from_article (fun _ => Except.error e) article =
      Except.error e ∧
    generate_linkedin_post (fun _ => Except.error e) article idea =
      Except.error e :=
  ⟨rfl, rfl, rfl, rfl⟩

/-- Claim C2, counterexample: on raw text lacking the "LinkedIn Post:"
header, the LinkedIn entry is indeed the placeholder and Instagram
extracts its own section, but the Twitter entry is NOT just the text of
its own section: it runs to the end of the text and swallows the whole
Instagram section, because the missing LinkedIn header was its only
cut point. -/
theorem C2_counterexample :
    linkedin_content "Twitter Post: tw\nInstagram Post: ig".data = liErr ∧
    instagram_content "Twitter Post: tw\nInstagram Post: ig".data =
      "ig".data ∧
    twitter_content "Twitter Post: tw\nInstagram Post: ig".data =
      "tw\nInstagram Post: ig".data ∧
    twitter_content "Twitter Post: tw\nInstagram Post: ig".data ≠
      "tw".data := by
  refine ⟨?_, ?_, ?_, ?_⟩ <;> decide

/-- Claim C2, amended: for raw text in which "Twitter Post:" occurs
exactly once, "LinkedIn Post:" does not occur, and "Instagram Post:"
occurs exactly once after the Twitter header, the LinkedIn entry is the
literal placeholder "Error generating LinkedIn content" (without
raising), the Instagram entry extracts its own trailing section
normally, and the Twitter entry is everything after the Twitter header
up to the end of the text, trimmed — including the Instagram section —
rather than only its own section. -/
theorem C2_amended (p m c raw : List Char)
    (hraw : raw = p ++ twHdr ++ m ++ igHdr ++ c)
    (h1 : countOcc twHdr raw = 1) (h0 : countOcc liHdr raw = 0)
    (h3 : countOcc igHdr raw = 1) :
    linkedin_content raw = liErr ∧
    twitter_content raw = pyStrip (m ++ igHdr ++ c) ∧
    instagram_content raw = pyStrip c := by
  subst hraw
  have e : p ++ twHdr ++ m ++ igHdr ++ c = socialRawNoLi p m c := by
    simp [socialRawNoLi, List.append_assoc]
  rw [e] at h1 h0 h3 ⊢
  rw [List.append_assoc m igHdr c]
  exact extract_noLi p m c h1 h0 h3

/-- Claim C2, witness for the amended theorem at a concrete raw text. -/
theorem C2_amended_witness :
    countOcc twHdr "Twitter Post: tw\nInstagram Post: ig".data = 1 ∧
    countOcc liHdr "Twitter Post: tw\nInstagram Post: ig".data = 0 ∧
    countOcc igHdr "Twitter Post: tw\nInstagram Post: ig".data = 1 ∧
    linkedin_content "Twitter Post: tw\nInstagram Post: ig".data = liErr ∧
    twitter_content "Twitter Post: tw\nInstagram Post: ig".data =
      pyStrip (" tw\n".data ++ igHdr ++ " ig".data) ∧
    instagram_content "Twitter Post: tw\nInstagram Post: ig".data =
      pyStrip " ig".data := by
  have h := C2_amended "".data " tw\n".data " ig".data
    "Twitter Post: tw\nInstagram Post: ig".data
    (by decide) (by decide) (by decide) (by decide)
  exact ⟨by decide, by decide, by decide, h.1, h.2.1, h.2.2⟩

/-- Claim C3: when the three headers "Twitter Post:", "LinkedIn Post:",
"Instagram Post:" each occur exactly once and in that order, the
extracted value for each header is exactly the substring strictly
between that header and the next one (end-of-text for the last),
trimmed of surrounding whitespace. -/
theorem C3_extract (p a b c raw : List Char)
    (hraw : raw = p ++ twHdr ++ a ++ liHdr ++ b ++ igHdr ++ c)
    (h1 : countOcc twHdr raw = 1) (h2 : countOcc liHdr raw = 1)
    (h3 : countOcc igHdr raw = 1) :
    twitter_content raw = pyStrip a ∧
    linkedin_content raw = pyStrip b ∧
    instagram_content raw = pyStrip c := by
  subst hraw
  have e : p ++ twHdr ++ a ++ liHdr ++ b ++ igHdr ++ c = socialRaw p a b c := by
    simp [socialRaw, List.append_assoc]
  rw [e] at h1 h2 h3 ⊢
  exact extract_all p a b c h1 h2 h3

/-- Claim C3, witness at a concrete three-section raw text. -/
theorem C3_extract_witness :
    countOcc twHdr
      "Twitter Post: A\nLinkedIn Post: B\nInstagram Post: C".data = 1 ∧
    countOcc liHdr
      "Twitter Post: A\nLinkedIn Post: B\nInstagram Post: C".data = 1 ∧
    countOcc igHdr
      "Twitter Post: A\nLinkedIn Post: B\nInstagram Post: C".data = 1 ∧
    twitter_content
      "Twitter Post: A\nLinkedIn Post: B\nInstagram Post: C".data =
      pyStrip " A\n".data ∧
    linkedin_content
      "Twitter Post: A\nLinkedIn Post: B\nInstagram Post: C".data =
      pyStrip " B\n".data ∧
    instagram_content
      "Twitter Post: A\nLinkedIn Post: B\nInstagram Post: C".data =
      pyStrip " C".data := by
  have h := C3_extract "".data " A\n".data " B\n".data " C".data
    "Twitter Post: A\nLinkedIn Post: B\nInstagram Post: C".data
    (by decide) (by decide) (by decide) (by decide)
  exact ⟨by decide, by decide, by decide, h.1, h.2.1, h.2.2⟩

/-- Claim C4: for the three documented agent-response shapes — plain
string, list of mappings, mapping with a `results` list of mappings —
`search_with_agent` returns records with exactly the keys title, link,
snippet; a missing title defaults to "No title" and missing link or
snippet to ""; a plain string yields one record with title
"Search Result", link "" and snippet equal to that string. -/
theorem C4_normalize (s : String) (ds es : List (List (String × PyVal)))
    (d : List (String × PyVal))
    (hres : d.lookup "results" = some (PyVal.list (es.map PyVal.dict))) :
    search_with_agent (Except.ok (PyVal.str s)) =
      [[("title", PyVal.str "Search Result"), ("link", PyVal.str ""),
        ("snippet", PyVal.str s)]] ∧
    search_with_agent (Except.ok (PyVal.list (ds.map PyVal.dict))) =
      ds.map item_record ∧
    search_with_agent (Except.ok (PyVal.dict d)) = es.map item_record ∧
    item_record [] = [("title", PyVal.str "No title"),
      ("link", PyVal.str ""), ("snippet", PyVal.str "")] ∧
    (∀ r ∈ ds.map item_record,
      r.map Prod.fst = ["title", "link", "snippet"]) ∧
    (∀ r ∈ es.map item_record,
      r.map Prod.fst = ["title", "link", "snippet"]) := by
  refine ⟨rfl, ?_, ?_, rfl, ?_, ?_⟩
  · exact search_list_eq _ _ (mapM_normItem_dicts ds)
  · exact search_dict_results_eq d _ _ hres (mapM_normItem_dicts es)
  · intro r hr
    obtain ⟨d', _, rfl⟩ := List.mem_map.mp hr
    rfl
  · intro r hr
    obtain ⟨d', _, rfl⟩ := List.mem_map.mp hr
    rfl

/-- Claim C4, witness at one concrete input per response shape. -/
theorem C4_normalize_witness :
    ([("results", PyVal.list [PyVal.dict [("title", PyVal.str "T")]])] :
        List (String × PyVal)).lookup "results" =
      some (PyVal.list ([[("title", PyVal.str "T")]].map PyVal.dict)) ∧
    search_with_agent (Except.ok (PyVal.str "hello")) =
      [[("title", PyVal.str "Search Result"), ("link", PyVal.str ""),
        ("snippet", PyVal.str "hello")]] ∧
    search_with_agent (Except.ok (PyVal.dict
        [("results", PyVal.list [PyVal.dict [("title", PyVal.str "T")]])])) =
      [[("title", PyVal.str "T")]].map item_record := by
  have h := C4_normalize "hello" [[("title", PyVal.str "T")]]
    [[("title", PyVal.str "T")]]
    [("results", PyVal.list [PyVal.dict [("title", PyVal.str "T")]])] rfl
  exact ⟨rfl, h.1, h.2.2.1⟩

/-- Claim C5: a news API response with status code other than 200 makes
`fetch_trending_articles` contribute zero articles for that keyword
without raising; with a single such keyword the result is the empty
list, and the other keywords in the same call are still processed. -/
theorem C5_non200 (responses : String → NewsResponse) (k0 : String)
    (h : (responses k0).status_code ≠ 200) (ks1 ks2 : List String) :
    processKeyword (responses k0) = Except.ok [] ∧
    fetch_trending_articles responses [k0] = Except.ok [] ∧
    fetch_trending_articles responses (ks1 ++ k0 :: ks2) =
      fetch_trending_articles responses (ks1 ++ ks2) := by
  have hp : processKeyword (responses k0) = Except.ok [] := by
    unfold processKeyword
    rw [if_neg h]
  refine ⟨hp, ?_, ?_⟩
  · show fetch_trending_articles responses [k0] = Except.ok []
    simp only [fetch_trending_articles, hp]
    rfl
  · induction ks1 with
    | nil =>
        simp only [List.nil_append]
        simp only [fetch_trending_articles, hp]
        cases hf : fetch_trending_articles responses ks2 with
        | ok r => rfl
        | error e => rfl
    | cons k ks ih =>
        simp only [List.cons_append]
        simp only [fetch_trending_articles]
        cases hk : processKeyword (responses k) with
        | error e => rfl
        | ok arts => rw [ih]

/-- Claim C5, witness with one keyword whose response has status 404. -/
theorem C5_non200_witness :
    ((fun _ => NewsResponse.mk 404 (PyVal.dict [])) "ev").status_code ≠ 200 ∧
    processKeyword ((fun _ => NewsResponse.mk 404 (PyVal.dict [])) "ev") =
      Except.ok [] ∧
    fetch_trending_articles (fun _ => NewsResponse.mk 404 (PyVal.dict []))
      ["ev"] = Except.ok [] := by
  have h := C5_non200 (fun _ => NewsResponse.mk 404 (PyVal.dict [])) "ev"
    (by decide) [] []
  exact ⟨by decide, h.1, h.2.1⟩

/-- Claim C6: the "Start Research" search loop keeps at most `L` results
per keyword — the accumulated result set is exactly the concatenation,
over the keywords in order, of each keyword's agent results truncated to
their first `L` entries, and its total length is at most
`L * (number of keywords)`. -/
theorem C6_limit (agentResp : String → Except String PyVal)
    (keywords : List String) (L : Nat) :
    research_search_loop agentResp keywords L =
      (keywords.map
        (fun k => (search_with_agent (agentResp k)).take L)).flatten ∧
    (research_search_loop agentResp keywords L).length ≤
      L * keywords.length := by
  have hjoin :=
    foldl_append_join (fun k => (search_with_agent (agentResp k)).take L)
      keywords []
  have h1 : research_search_loop agentResp keywords L =
      (keywords.map
        (fun k => (search_with_agent (agentResp k)).take L)).flatten := by
    unfold research_search_loop
    rw [hjoin]
    rfl
  refine ⟨h1, ?_⟩
  rw [h1]
  apply join_length_le
  intro k
  simp only [List.length_take]
  omega

/-- Claim C7: with the GROQ_API_KEY environment variable absent, startup
raises the GROQ error before any model, agent or network object is
constructed (the `Except.error` result carries no `GroqModel`); with
GROQ_API_KEY present but NEWS_API_KEY absent it likewise raises the
News-key error. -/
theorem C7_failfast (env : String → Option String) :
    (env "GROQ_API_KEY" = Option.none →
      startup env =
        Except.error
          "Missing required GROQ API key. Please check your .env file.") ∧
    (pyFalsy (env "GROQ_API_KEY") = false →
      env "NEWS_API_KEY" = Option.none →
      startup env =
        Except.error
          "Missing required News API key. Please check your .env file.") := by
  constructor
  · intro hg
    simp only [startup, hg]
    rfl
  · intro hg hn
    simp only [startup, hn]
    rw [hg]
    rfl

/-- Claim C7, witness: an empty environment fails with the GROQ message;
an environment holding only GROQ_API_KEY fails with the News message. -/
theorem C7_failfast_witness :
    startup (fun _ => Option.none) =
      Except.error
        "Missing required GROQ API key. Please check your .env file." ∧
    startup (fun k => if k = "GROQ_API_KEY" then some "g" else Option.none) =
      Except.error
        "Missing required News API key. Please check your .env file." :=
  ⟨(C7_failfast (fun _ => Option.none)).1 rfl,
   (C7_failfast
      (fun k => if k = "GROQ_API_KEY" then some "g" else Option.none)).2
     (by decide) (by decide)⟩

/-- Claim C8: for raw text containing all three ordered headers exactly
once with non-empty bodies, extraction yields exactly the three channel
entries, and concatenating them with their headers reinserted in
extraction order reproduces the sections in their original order (the
trimmed bodies under their headers); when nothing precedes the first
header and the bodies carry no surrounding whitespace, the concatenation
reconstructs the raw text verbatim. -/
theorem C8_reconstruction (p a b c raw : List Char)
    (hraw : raw = p ++ twHdr ++ a ++ liHdr ++ b ++ igHdr ++ c)
    (h1 : countOcc twHdr raw = 1) (h2 : countOcc liHdr raw = 1)
    (h3 : countOcc igHdr raw = 1)
    (_ha : a ≠ []) (_hb : b ≠ []) (_hc : c ≠ []) :
    twHdr ++ twitter_content raw ++ liHdr ++ linkedin_content raw ++
        igHdr ++ instagram_content raw =
      twHdr ++ pyStrip a ++ liHdr ++ pyStrip b ++ igHdr ++ pyStrip c ∧
    (p = [] → pyStrip a = a → pyStrip b = b → pyStrip c = c →
      twHdr ++ twitter_content raw ++ liHdr ++ linkedin_content raw ++
          igHdr ++ instagram_content raw = raw) := by
  subst hraw
  have e : p ++ twHdr ++ a ++ liHdr ++ b ++ igHdr ++ c = socialRaw p a b c := by
    simp [socialRaw, List.append_assoc]
  rw [e] at h1 h2 h3 ⊢
  obtain ⟨tw, li, ig⟩ := extract_all p a b c h1 h2 h3
  rw [tw, li, ig]
  refine ⟨rfl, ?_⟩
  intro hp hsa hsb hsc
  subst hp
  rw [hsa, hsb, hsc]
  simp [socialRaw, List.append_assoc]

/-- Claim C8, witness at a concrete raw text with no pre-header prefix
and whitespace-free bodies, where reconstruction is verbatim. -/
theorem C8_reconstruction_witness :
    countOcc twHdr
      "Twitter Post:AALinkedIn Post:BBInstagram Post:CC".data = 1 ∧
    countOcc liHdr
      "Twitter Post:AALinkedIn Post:BBInstagram Post:CC".data = 1 ∧
    countOcc igHdr
      "Twitter Post:AALinkedIn Post:BBInstagram Post:CC".data = 1 ∧
    ("AA".data : List Char) ≠ [] ∧ ("BB".data : List Char) ≠ [] ∧
    ("CC".data : List Char) ≠ [] ∧
    twHdr ++
        twitter_content
          "Twitter Post:AALinkedIn Post:BBInstagram Post:CC".data ++
        liHdr ++
        linkedin_content
          "Twitter Post:AALinkedIn Post:BBInstagram Post:CC".data ++
        igHdr ++
        instagram_content
          "Twitter Post:AALinkedIn Post:BBInstagram Post:CC".data =
      "Twitter Post:AALinkedIn Post:BBInstagram Post:CC".data := by
  have h := C8_reconstruction [] "AA".data "BB".data "CC".data
    "Twitter Post:AALinkedIn Post:BBInstagram Post:CC".data
    (by decide) (by decide) (by decide) (by decide)
    (by decide) (by decide) (by decide)
  exact ⟨by decide, by decide, by decide, by decide, by decide, by decide,
    h.2 rfl (by decide) (by decide) (by decide)⟩

/-- Claim C9: when the agent-run content is none of the three documented
shapes — not a string, not a list, and not a dict with a `results` key —
`search_with_agent` still returns exactly one record with title
"Search Result", link "" and snippet `str(content)`, instead of raising
or returning an empty list. -/
theorem C9_catchall (content : PyVal)
    (hs : ∀ s, content ≠ PyVal.str s)
    (hl : ∀ l, content ≠ PyVal.list l)
    (hd : ∀ d, content = PyVal.dict d → d.lookup "results" = Option.none) :
    search_with_agent (Except.ok content) =
      [[("title", PyVal.str "Search Result"), ("link", PyVal.str ""),
        ("snippet", PyVal.str (pyStr content))]] := by
  cases content with
  | str s => exact absurd rfl (hs s)
  | list l => exact absurd rfl (hl l)
  | dict d =>
      simp only [search_with_agent, hd d rfl]
  | int n => rfl
  | none => rfl

/-- Claim C9, witness at a mapping without a `results` key. -/
theorem C9_catchall_witness :
    search_with_agent (Except.ok (PyVal.dict [("foo", PyVal.int 1)])) =
      [[("title", PyVal.str "Search Result"), ("link", PyVal.str ""),
        ("snippet", PyVal.str (pyStr (PyVal.dict [("foo", PyVal.int 1)])))]] :=
  C9_catchall _ (fun s => by simp) (fun l => by simp)
    (fun d h => by cases h; rfl)

/-- Claim C10: when the agent-run content is a list containing any
non-mapping element, the per-item field access raises, the handler
converts the whole call to zero results, and `search_with_agent` returns
the empty list. -/
theorem C10_nonmapping (items : List PyVal) (x : PyVal) (hx : x ∈ items)
    (hnd : ∀ d, x ≠ PyVal.dict d) :
    search_with_agent (Except.ok (PyVal.list items)) = [] := by
  cases h : items.mapM normItem with
  | ok recs =>
      obtain ⟨d, hdd⟩ := mapM_normItem_ok_dict items recs h x hx
      exact absurd hdd (hnd d)
  | error e =>
      simp only [search_with_agent]
      rw [h]

/-- Claim C10, witness at a list holding one plain string. -/
theorem C10_nonmapping_witness :
    search_with_agent (Except.ok (PyVal.list [PyVal.str "hello"])) = [] :=
  C10_nonmapping _ (PyVal.str "hello") (by simp) (fun d => by simp)

end ResearchAgent
